import Mathlib

/-!
A verification development for the static-site build pipeline in
`build.py`: markdown post parsing (metadata defaulting, slug and URL
derivation, read time), collection ordering, pagination, search-index
projection, and the build orchestration's error handling.  Each
definition is a shallow embedding of the corresponding piece of the
source; machine integers are modelled by `Nat`, Python dicts by
association lists, and the file system by explicit inputs.
-/

namespace Build

/-- The configured base URL (`BASE_URL`, line 12 of the source). -/
def BASE_URL : String := "https://sdmm.site"

/-- The page capacity (`POSTS_PER_PAGE`, line 18 of the source). -/
def POSTS_PER_PAGE : Nat := 6

/-- Python's `s.replace(".md", rep)` on the character list of `s`: every
non-overlapping occurrence of `".md"` is replaced, scanning left to
right.  Used on lines 79 and 89 of the source. -/
def replaceMd (rep : List Char) : List Char → List Char
  | '.' :: 'm' :: 'd' :: rest => rep ++ replaceMd rep rest
  | c :: rest => c :: replaceMd rep rest
  | [] => []

/-- `filename.replace('.md', '.html')` (line 89): the derived slug. -/
def slugOf (filename : String) : String :=
  String.mk (replaceMd ".html".data filename.data)

/-- `filename.replace('.md', '')` (line 79): the default title. -/
def defaultTitle (filename : String) : String :=
  String.mk (replaceMd [] filename.data)

/-- Python `round` applied to the quotient `w / d` (line 71).  Python
rounds half to even; for every word count a file can hold, the float
division `word_count / 200` is exact at every half-integer boundary and
otherwise too far from a boundary for the float rounding to differ from
the rounding of the exact rational, so the rational half-to-even
rounding is the value the source computes. -/
def pyRound (w d : Nat) : Nat :=
  let q := w / d
  let r := w % d
  if 2 * r < d then q
  else if d < 2 * r then q + 1
  else if q % 2 = 0 then q else q + 1

/-- Lines 70-72: `read_time = round(word_count / 200)`, clamped up to 1. -/
def read_time (word_count : Nat) : Nat :=
  let r := pyRound word_count 200
  if r < 1 then 1 else r

/-- `len(text.split())` (line 70): tokens are maximal runs of
non-whitespace characters. -/
def countTokensAux : Bool → List Char → Nat
  | _, [] => 0
  | inWord, c :: cs =>
    if c.isWhitespace then countTokensAux false cs
    else (if inWord then 0 else 1) + countTokensAux true cs

/-- Number of whitespace-delimited tokens of a string (line 70). -/
def countTokens (s : String) : Nat := countTokensAux false s.data

/-- Declared metadata: the `meta` dict of line 75, modelled as an
association list (dict keys are unique; a lookup takes the first hit). -/
abbrev Meta := List (String × String)

/-- `meta[k] = v` guarded by `if k not in meta` (the pattern of lines
79-85): the pair is added only when the key is absent. -/
def setDefault (k v : String) (m : Meta) : Meta :=
  if (m.lookup k).isSome then m else m ++ [(k, v)]

/-- Line 85: the default cover image path. -/
def defaultImage : String := "images/default-cover.jpg"

/-- Line 80: the placeholder summary. -/
def defaultSummary : String := "No summary provided."

/-- Line 81: the placeholder date. -/
def defaultDate : String := "2025-01-01"

/-- Lines 79-85: fill each of the four recognized keys when absent. -/
def normalizeMeta (filename : String) (m : Meta) : Meta :=
  setDefault "image" defaultImage
    (setDefault "date" defaultDate
      (setDefault "summary" defaultSummary
        (setDefault "title" (defaultTitle filename) m)))

/-- The post record appended on lines 92-100. -/
structure Post where
  slug : String
  html : String
  meta : Meta
  filename : String
  read_time : Nat
  full_image_url : String
  full_url : String
deriving DecidableEq

/-- Lines 70-100 for a single file: build the post record from the
filename, the converted HTML, the extracted metadata and the raw text. -/
def mkPost (filename html : String) (m : Meta) (text : String) : Post :=
  let meta := normalizeMeta filename m
  { slug := slugOf filename
    html := html
    meta := meta
    filename := filename
    read_time := read_time (countTokens text)
    full_image_url := BASE_URL ++ "/" ++ (meta.lookup "image").getD ""
    full_url := BASE_URL ++ "/" ++ slugOf filename }

/-- The observable state of the reusable `markdown.Markdown` instance
created on line 56: whether the `Meta` attribute is set, and to what.
`none` models the attribute being absent (before the first conversion);
`some m` models `md.Meta` holding `m`. -/
structure MDState where
  metaAttr : Option Meta
deriving DecidableEq

/-- The freshly constructed instance (line 56): no `Meta` attribute yet. -/
def initMD : MDState := ⟨none⟩

/-- `md.convert(text)` (line 68), parametrized by the library's pure
rendering and front-matter parsing functions: it returns the HTML and
stores the metadata parsed from this text on the instance (the `meta`
extension overwrites `md.Meta` on every conversion). -/
def convert (render : String → String) (parseMeta : String → Meta)
    (st : MDState) (text : String) : String × MDState :=
  let _ := st
  (render text, ⟨some (parseMeta text)⟩)

/-- `md.reset()` (line 101): the `meta` extension resets the stored
metadata to the empty mapping. -/
def resetMD (st : MDState) : MDState :=
  let _ := st
  ⟨some []⟩

/-- Lines 66-101 for one file: convert, read `md.Meta` through the
`hasattr` check of lines 74-77, build the post, then reset. -/
def processOne (render : String → String) (parseMeta : String → Meta)
    (st : MDState) (filename text : String) : Post × MDState :=
  let c := convert render parseMeta st text
  let m : Meta := c.2.metaAttr.getD []
  (mkPost filename c.1 m text, resetMD c.2)

/-- The loop of lines 64-101 over a list of `(filename, rawText)` pairs,
threading the shared `md` instance's state. -/
def processAll (render : String → String) (parseMeta : String → Meta)
    (st : MDState) : List (String × String) → List Post × MDState
  | [] => ([], st)
  | f :: fs =>
    let p := processOne render parseMeta st f.1 f.2
    let rest := processAll render parseMeta p.2 fs
    (p.1 :: rest.1, rest.2)

/-- The sort key of line 103: the post's date string (always present
after normalization). -/
def dateOf (p : Post) : String := (p.meta.lookup "date").getD ""

/-- The descending comparison used by `posts.sort(key=..., reverse=True)`
(line 103): `a` may precede `b` exactly when `a`'s date is ≥ `b`'s. -/
def dateGe (a b : Post) : Prop := dateOf b ≤ dateOf a

instance : DecidableRel dateGe :=
  fun a b => inferInstanceAs (Decidable (dateOf b ≤ dateOf a))

instance : IsTotal Post dateGe :=
  ⟨fun a b => le_total (dateOf b) (dateOf a)⟩

instance : IsTrans Post dateGe :=
  ⟨fun _ _ _ h1 h2 => le_trans h2 h1⟩

/-- Line 103: `posts.sort(key=lambda x: x['meta']['date'], reverse=True)`.
Python's stable descending sort is extensionally determined by being a
permutation, non-increasing in the key, and order-preserving on equal
keys; insertion sort with `dateGe` satisfies exactly these, so it is the
embedding of the source's sort. -/
def sortPosts (l : List Post) : List Post := l.insertionSort dateGe

/-- The search record of lines 128-132: exactly a title, a url and a
summary. -/
structure SearchRecord where
  title : String
  url : String
  summary : String
deriving DecidableEq

/-- Lines 128-132: the projection of one post into its search record. -/
def searchRecordOf (p : Post) : SearchRecord :=
  ⟨(p.meta.lookup "title").getD "", p.slug, (p.meta.lookup "summary").getD ""⟩

/-- Lines 126-132: the search index is the projection of the ordered
collection, in order. -/
def searchIndex (posts : List Post) : List SearchRecord :=
  posts.map searchRecordOf

/-- Line 155: `math.ceil(total_posts / POSTS_PER_PAGE)` as exact ceiling
division on naturals (the float quotient never rounds across an integer
boundary for representable sizes). -/
def total_pages (n c : Nat) : Nat := (n + c - 1) / c

/-- Lines 158-160: page `p` holds `posts[start:end]` with
`start = (p-1)*c` and `end = start + c`. -/
def chunk {α : Type} (posts : List α) (c p : Nat) : List α :=
  (posts.drop ((p - 1) * c)).take c

/-- Line 162: the output filename of listing page `p`. -/
def listing_filename (p : Nat) : String :=
  if p = 1 then "index.html" else "page" ++ toString p ++ ".html"

/-- Lines 164-166: the previous-page link of page `p`. -/
def prev_url (p : Nat) : String :=
  if 1 < p then
    (if p = 2 then "index.html" else "page" ++ toString (p - 1) ++ ".html")
  else ""

/-- Lines 165-167: the next-page link of page `p` out of `t`. -/
def next_url (p t : Nat) : String :=
  if p < t then "page" ++ toString (p + 1) ++ ".html" else ""

/-- The listing pages produced by the loop of lines 157-160: page `i+1`
for `i` ranging over `range(total_pages)`. -/
def pages {α : Type} (posts : List α) (c : Nat) : List (List α) :=
  (List.range (total_pages posts.length c)).map (fun i => chunk posts c (i + 1))

/-- `f.endswith(".md")` (line 62). -/
def endsWithMd (s : String) : Bool :=
  match s.data.reverse with
  | 'd' :: 'm' :: '.' :: _ => true
  | _ => false

/-- Lines 53-104, with the file system abstracted: `root = none` models a
missing content directory (lines 58-60 print an error and return the
empty list; the returned flag records that the error was reported);
otherwise the eligible `.md` files are processed and sorted. -/
def parse_markdown_posts (render : String → String) (parseMeta : String → Meta)
    (root : Option (List (String × String))) : List Post × Bool :=
  match root with
  | none => ([], true)
  | some files =>
    (sortPosts (processAll render parseMeta initMD
        (files.filter (fun f => endsWithMd f.1))).1, false)

/-- The observable outcome of one `build()` run (lines 106-180):
which conditions were reported and which outputs were written. -/
structure BuildOutput where
  missingRootReported : Bool
  emptyAborted : Bool
  searchWritten : Bool
  templateErrorReported : Bool
  postPages : List String
  listingPages : List String
  paginatorCalledWith : Option Nat
deriving DecidableEq

/-- Lines 106-180: the build orchestration.  After parsing, an empty
collection aborts the run (lines 121-123) before the search index; the
search index is written (lines 126-134) before template resolution
(lines 138-143), whose failure (`templatesOk = false`) aborts the run
before any post page or listing page is written; otherwise every post
page (lines 145-152) and every listing page (lines 154-178) is written,
and the paginator runs over the collection's size. -/
def build (render : String → String) (parseMeta : String → Meta)
    (root : Option (List (String × String))) (templatesOk : Bool) : BuildOutput :=
  let pr := parse_markdown_posts render parseMeta root
  let posts := pr.1
  if posts.isEmpty then
    ⟨pr.2, true, false, false, [], [], none⟩
  else if templatesOk then
    ⟨pr.2, false, true, false, posts.map Post.slug,
      (List.range (total_pages posts.length POSTS_PER_PAGE)).map
        (fun i => listing_filename (i + 1)),
      some posts.length⟩
  else
    ⟨pr.2, false, true, true, [], [], none⟩

/-! ### Read time (claim C2) -/

/-- C2: for every whitespace-token count `w`, the derived read time is
`max 1 (round(w / 200))` under Python's rounding and is always at least
1; in particular `w = 0`, `w = 200` and `w = 201` give 1 and `w = 301`
gives 2. -/
theorem C2_read_time (w : Nat) :
    read_time w = max 1 (pyRound w 200) ∧ 1 ≤ read_time w ∧
    read_time 0 = 1 ∧ read_time 200 = 1 ∧ read_time 201 = 1 ∧
    read_time 301 = 2 := by
  refine ⟨?_, ?_, by decide, by decide, by decide, by decide⟩
  · simp only [read_time]
    split <;> omega
  · simp only [read_time]
    split <;> omega

/-! ### Slug and URL derivation (claim C5) -/

/-- C5 is refuted on filenames containing `".md"` away from the end:
the source replaces every occurrence, not only the extension.  For the
eligible filename `"a.md.md"`, replacing only the extension would give
`"a.md.html"`, but the code produces `"a.html.html"`. -/
theorem C5_counterexample :
    endsWithMd "a.md.md" = true ∧
    slugOf "a.md.md" = "a.html.html" ∧
    slugOf "a.md.md" ≠ "a.md.html" := by
  refine ⟨by decide, ?_, ?_⟩ <;> decide

/-- C5 (amended): the slug is the filename with every occurrence of
`".md"` replaced by `".html"`, and it depends only on the filename —
never on the body, the raw text or the metadata; `fullUrl` is
`baseUrl ++ "/" ++ slug` and `fullImageUrl` is
`baseUrl ++ "/" ++ metadata.image`. -/
theorem C5_slug (filename html h2 : String) (m m2 : Meta) (text t2 : String) :
    (mkPost filename html m text).slug =
      String.mk (replaceMd ".html".data filename.data) ∧
    (mkPost filename html m text).slug = (mkPost filename h2 m2 t2).slug ∧
    (mkPost filename html m text).full_url =
      BASE_URL ++ "/" ++ (mkPost filename html m text).slug ∧
    (mkPost filename html m text).full_image_url =
      BASE_URL ++ "/" ++
        (((mkPost filename html m text).meta).lookup "image").getD "" :=
  ⟨rfl, rfl, rfl, rfl⟩

/-! ### Search index (claims C6 and C10) -/

/-- C6: the search index has exactly one record per document of the
ordered collection, in the same order (the `i`-th record is the
projection of the `i`-th document), and each record carries exactly the
three fields title, url and summary of its document. -/
theorem C6_search_index (posts : List Post) :
    (searchIndex posts).length = posts.length ∧
    (∀ i : Nat, (searchIndex posts)[i]? = (posts[i]?).map searchRecordOf) ∧
    (∀ p : Post, searchRecordOf p =
      ⟨(p.meta.lookup "title").getD "", p.slug,
        (p.meta.lookup "summary").getD ""⟩) := by
  refine ⟨by simp [searchIndex], fun i => ?_, fun p => rfl⟩
  simp [searchIndex]

/-- No string equals itself prefixed by the base URL and a slash. -/
theorem ne_baseUrl_prepend (s : String) : s ≠ BASE_URL ++ "/" ++ s := by
  intro h
  have hlen := congrArg String.length h
  rw [String.length_append, String.length_append] at hlen
  have : BASE_URL.length = 17 := rfl
  omega

/-- C10: every search record's `url` is the document's site-relative
slug, not the absolute `fullUrl` the normalizer derives. -/
theorem C10_search_url (posts : List Post)
    (filename html text : String) (m : Meta) :
    (∀ i : Nat, ((searchIndex posts)[i]?).map SearchRecord.url =
      (posts[i]?).map Post.slug) ∧
    (searchRecordOf (mkPost filename html m text)).url =
      (mkPost filename html m text).slug ∧
    (searchRecordOf (mkPost filename html m text)).url ≠
      (mkPost filename html m text).full_url := by
  refine ⟨fun i => ?_, rfl, ne_baseUrl_prepend _⟩
  simp only [searchIndex, List.getElem?_map, Option.map_map]
  cases posts[i]? <;> rfl

/-! ### Missing content root (claim C7) -/

/-- C7: with a missing content root the loader reports the error and
returns the empty collection; the build then aborts with the reported
recoverable condition, writes no standalone page and no listing page,
and — on every input whatsoever — the paginator is never invoked with an
empty collection. -/
theorem C7_missing_root (render : String → String)
    (parseMeta : String → Meta) (tOk : Bool) :
    parse_markdown_posts render parseMeta none = ([], true) ∧
    (build render parseMeta none tOk).missingRootReported = true ∧
    (build render parseMeta none tOk).emptyAborted = true ∧
    (build render parseMeta none tOk).postPages = [] ∧
    (build render parseMeta none tOk).listingPages = [] ∧
    (∀ root, (build render parseMeta root tOk).paginatorCalledWith ≠
      some 0) := by
  refine ⟨rfl, rfl, rfl, rfl, rfl, fun root => ?_⟩
  simp only [build]
  split
  · simp
  · split
    · rename_i hne _
      simp only [ne_eq, Option.some.injEq]
      intro hc
      rw [List.length_eq_zero] at hc
      simp [hc] at hne
    · simp

/-! ### Transformer statelessness (claim C9) -/

/-- C9: the transformer leaks no state between documents — the post
produced for a file is the same whether the shared instance starts fresh
or arrives in any state left by previous conversions, and a whole run is
the map of the fresh-instance transformation over the files. -/
theorem C9_stateless (render : String → String) (parseMeta : String → Meta)
    (st : MDState) (files : List (String × String)) (filename text : String) :
    (processOne render parseMeta st filename text).1 =
      (processOne render parseMeta initMD filename text).1 ∧
    (processAll render parseMeta st files).1 =
      files.map (fun f => (processOne render parseMeta initMD f.1 f.2).1) := by
  refine ⟨rfl, ?_⟩
  induction files generalizing st with
  | nil => rfl
  | cons f fs ih =>
    simp only [processAll, List.map]
    exact congrArg _ (ih _)

/-! ### Metadata defaulting (claim C4) -/

/-- Looking up the guarded key after `setDefault`: the old value when
present, the default when absent. -/
theorem lookup_setDefault_self (k v : String) (m : Meta) :
    (setDefault k v m).lookup k = some ((m.lookup k).getD v) := by
  unfold setDefault
  cases h : m.lookup k with
  | some w => simp [h]
  | none => simp [h, List.lookup_append]

/-- `setDefault` never changes the value of any other key. -/
theorem lookup_setDefault_ne (q k v : String) (m : Meta) (h : q ≠ k) :
    (setDefault k v m).lookup q = m.lookup q := by
  unfold setDefault
  split
  · rfl
  · rw [List.lookup_append]
    have hbeq : (q == k) = false := by simp [h]
    cases hq : m.lookup q <;> simp [List.lookup_cons, hbeq]

/-- Full characterization of `normalizeMeta` lookups: each recognized key
carries its original value when present and its default otherwise, and
every other key is untouched. -/
theorem lookup_normalizeMeta (f q : String) (m : Meta) :
    (normalizeMeta f m).lookup q =
      if q = "title" then some ((m.lookup "title").getD (defaultTitle f))
      else if q = "summary" then some ((m.lookup "summary").getD defaultSummary)
      else if q = "date" then some ((m.lookup "date").getD defaultDate)
      else if q = "image" then some ((m.lookup "image").getD defaultImage)
      else m.lookup q := by
  by_cases h1 : q = "title"
  · subst h1
    rw [normalizeMeta, lookup_setDefault_ne _ _ _ _ (by decide),
      lookup_setDefault_ne _ _ _ _ (by decide),
      lookup_setDefault_ne _ _ _ _ (by decide), lookup_setDefault_self]
    simp
  by_cases h2 : q = "summary"
  · subst h2
    rw [normalizeMeta, lookup_setDefault_ne _ _ _ _ (by decide),
      lookup_setDefault_ne _ _ _ _ (by decide), lookup_setDefault_self,
      lookup_setDefault_ne _ _ _ _ (by decide)]
    simp [h1]
  by_cases h3 : q = "date"
  · subst h3
    rw [normalizeMeta, lookup_setDefault_ne _ _ _ _ (by decide),
      lookup_setDefault_self, lookup_setDefault_ne _ _ _ _ (by decide),
      lookup_setDefault_ne _ _ _ _ (by decide)]
    simp [h1, h2]
  by_cases h4 : q = "image"
  · subst h4
    rw [normalizeMeta, lookup_setDefault_self,
      lookup_setDefault_ne _ _ _ _ (by decide),
      lookup_setDefault_ne _ _ _ _ (by decide),
      lookup_setDefault_ne _ _ _ _ (by decide)]
    simp [h1, h2, h3]
  · rw [normalizeMeta, lookup_setDefault_ne _ _ _ _ h4,
      lookup_setDefault_ne _ _ _ _ h3, lookup_setDefault_ne _ _ _ _ h2,
      lookup_setDefault_ne _ _ _ _ h1]
    simp [h1, h2, h3, h4]

/-- C4 is refuted on the eligible filename `"b.md.md"` with no declared
title: the documented default (the filename with the content extension
stripped, `"b.md"`) differs from what the code stores, because
`filename.replace('.md', '')` removes every occurrence of `".md"`. -/
theorem C4_counterexample :
    endsWithMd "b.md.md" = true ∧
    (normalizeMeta "b.md.md" []).lookup "title" = some "b" ∧
    (normalizeMeta "b.md.md" []).lookup "title" ≠ some "b.md" := by
  exact ⟨by decide, by decide, by decide⟩

/-- C4 (amended): each recognized key missing from the declared metadata
is filled with its documented default — except that the default title is
the filename with every occurrence of `".md"` removed rather than with
only the extension stripped — the defaults are applied independently and
only when the key is absent (declared values are kept verbatim), and no
other metadata key is altered. -/
theorem C4_defaults (filename : String) (m : Meta) :
    (m.lookup "title" = none →
      (normalizeMeta filename m).lookup "title" =
        some (defaultTitle filename)) ∧
    (m.lookup "summary" = none →
      (normalizeMeta filename m).lookup "summary" = some defaultSummary) ∧
    (m.lookup "date" = none →
      (normalizeMeta filename m).lookup "date" = some defaultDate) ∧
    (m.lookup "image" = none →
      (normalizeMeta filename m).lookup "image" = some defaultImage) ∧
    (∀ k v, m.lookup k = some v →
      (normalizeMeta filename m).lookup k = some v) ∧
    (∀ k, k ≠ "title" → k ≠ "summary" → k ≠ "date" → k ≠ "image" →
      (normalizeMeta filename m).lookup k = m.lookup k) := by
  refine ⟨fun h => ?_, fun h => ?_, fun h => ?_, fun h => ?_,
    fun k v h => ?_, fun k n1 n2 n3 n4 => ?_⟩
  · rw [lookup_normalizeMeta]; simp [h]
  · rw [lookup_normalizeMeta]; simp [h]
  · rw [lookup_normalizeMeta]; simp [h]
  · rw [lookup_normalizeMeta]; simp [h]
  · rw [lookup_normalizeMeta]
    by_cases h1 : k = "title"
    · subst h1; simp [h]
    by_cases h2 : k = "summary"
    · subst h2; simp [h, h1]
    by_cases h3 : k = "date"
    · subst h3; simp [h, h1, h2]
    by_cases h4 : k = "image"
    · subst h4; simp [h, h1, h2, h3]
    · simp [h, h1, h2, h3, h4]
  · rw [lookup_normalizeMeta]
    simp [n1, n2, n3, n4]

/-- Concrete instantiation of `C4_defaults`: with only a date declared,
the title is defaulted and the declared date is kept. -/
theorem C4_defaults_witness :
    ([("date", "2024-05-05")] : Meta).lookup "title" = none ∧
    (normalizeMeta "post.md" [("date", "2024-05-05")]).lookup "title" =
      some (defaultTitle "post.md") ∧
    (normalizeMeta "post.md" [("date", "2024-05-05")]).lookup "date" =
      some "2024-05-05" :=
  ⟨by decide, (C4_defaults "post.md" [("date", "2024-05-05")]).1 (by decide),
    (C4_defaults "post.md" [("date", "2024-05-05")]).2.2.2.2.1
      "date" "2024-05-05" (by decide)⟩

/-! ### Collection ordering (claim C3) -/

/-- Inserting a post whose date is `k` commutes with filtering on date
`k`: every post skipped over has a strictly larger date. -/
theorem filter_orderedInsert_key (a : Post) (l : List Post) (k : String)
    (ha : dateOf a = k) :
    (l.orderedInsert dateGe a).filter (fun p => dateOf p == k) =
      a :: l.filter (fun p => dateOf p == k) := by
  induction l with
  | nil => simp [List.orderedInsert, List.filter_cons, ha]
  | cons b l ih =>
    by_cases hr : dateGe a b
    · simp [List.orderedInsert, if_pos hr, List.filter_cons, ha]
    · have hlt : dateOf a < dateOf b := not_le.mp hr
      have hbk : (dateOf b == k) = false := by
        simp only [beq_eq_false_iff_ne, ne_eq]
        exact fun hbe => absurd (ha ▸ hbe ▸ hlt) (lt_irrefl _)
      simp [List.orderedInsert, if_neg hr, List.filter_cons, hbk, ih]

/-- Inserting a post whose date is not `k` leaves the date-`k`
subsequence unchanged. -/
theorem filter_orderedInsert_ne (a : Post) (l : List Post) (k : String)
    (ha : dateOf a ≠ k) :
    (l.orderedInsert dateGe a).filter (fun p => dateOf p == k) =
      l.filter (fun p => dateOf p == k) := by
  have hak : (dateOf a == k) = false := by simp [ha]
  induction l with
  | nil => simp [List.orderedInsert, List.filter_cons, hak]
  | cons b l ih =>
    by_cases hr : dateGe a b
    · simp [List.orderedInsert, if_pos hr, List.filter_cons, hak]
    · simp [List.orderedInsert, if_neg hr, List.filter_cons, ih]

/-- The ordering stage preserves the subsequence of posts having any
fixed date: stability of the sort of line 103. -/
theorem filter_sortPosts (l : List Post) (k : String) :
    (sortPosts l).filter (fun p => dateOf p == k) =
      l.filter (fun p => dateOf p == k) := by
  unfold sortPosts
  induction l with
  | nil => rfl
  | cons a l ih =>
    simp only [List.insertionSort]
    by_cases ha : dateOf a = k
    · rw [filter_orderedInsert_key a _ k ha, ih, List.filter_cons,
        if_pos (by simp [ha])]
    · rw [filter_orderedInsert_ne a _ k ha, ih, List.filter_cons,
        if_neg (by simp [ha])]

/-- C3: the orderer returns a permutation of its input that is
non-increasing in the date string, and it is stable — for every date
value, the posts carrying that date appear in their input order. -/
theorem C3_sort (l : List Post) :
    (sortPosts l).Perm l ∧
    List.Sorted dateGe (sortPosts l) ∧
    (∀ k : String, (sortPosts l).filter (fun p => dateOf p == k) =
      l.filter (fun p => dateOf p == k)) :=
  ⟨List.perm_insertionSort dateGe l, List.sorted_insertionSort dateGe l,
    fun k => filter_sortPosts l k⟩

/-! ### Pagination (claim C1) -/

/-- Ceiling division of zero is zero. -/
theorem total_pages_zero (c : Nat) (hc : 0 < c) : total_pages 0 c = 0 := by
  unfold total_pages
  exact Nat.div_eq_of_lt (by omega)

/-- For a nonempty collection, `total_pages` is a successor form. -/
theorem total_pages_pos_eq (n c : Nat) (hc : 0 < c) (hn : 0 < n) :
    total_pages n c = (n - 1) / c + 1 := by
  unfold total_pages
  have h1 : n + c - 1 = (n - 1) + c := by omega
  rw [h1, Nat.add_div_right _ hc]

/-- Peeling one full page off the front of the collection. -/
theorem total_pages_succ (n c : Nat) (hc : 0 < c) (hn : 0 < n) :
    total_pages n c = total_pages (n - c) c + 1 := by
  rcases Nat.lt_or_ge n (c + 1) with h | h
  · rw [total_pages_pos_eq n c hc hn]
    have hnc : n - c = 0 := by omega
    rw [hnc, total_pages_zero c hc]
    have h2 : (n - 1) / c = 0 := Nat.div_eq_of_lt (by omega)
    omega
  · rw [total_pages_pos_eq n c hc hn,
      total_pages_pos_eq (n - c) c hc (by omega)]
    have h2 : n - 1 = (n - c - 1) + c := by omega
    rw [h2, Nat.add_div_right _ hc]

/-- `total_pages n c` is the least page count covering `n` documents. -/
theorem total_pages_bounds (n c : Nat) (hc : 0 < c) (hn : 0 < n) :
    c * (total_pages n c - 1) < n ∧ n ≤ c * total_pages n c := by
  rw [total_pages_pos_eq n c hc hn]
  have hdm := Nat.div_add_mod (n - 1) c
  have hmod : (n - 1) % c < c := Nat.mod_lt _ hc
  rw [Nat.mul_succ]
  simp only [Nat.add_sub_cancel]
  omega

/-- `total_pages` agrees with the exact ceiling `⌈N / C⌉`. -/
theorem total_pages_eq_ceil (n c : Nat) (hc : 0 < c) (hn : 0 < n) :
    total_pages n c = ⌈(n : ℚ) / (c : ℚ)⌉₊ := by
  obtain ⟨hlow, hhigh⟩ := total_pages_bounds n c hc hn
  have ht0 : total_pages n c ≠ 0 := by
    intro h
    rw [h, Nat.mul_zero] at hhigh
    omega
  have hcq : (0 : ℚ) < (c : ℚ) := by exact_mod_cast hc
  symm
  rw [Nat.ceil_eq_iff ht0]
  constructor
  · rw [lt_div_iff₀ hcq]
    rw [Nat.mul_comm] at hlow
    exact_mod_cast hlow
  · rw [div_le_iff₀ hcq]
    rw [Nat.mul_comm] at hhigh
    exact_mod_cast hhigh

/-- Shifting a chunk index down by one page is dropping one page of
documents. -/
theorem chunk_shift {α : Type} (posts : List α) (c i : Nat) :
    chunk posts c (i + 2) = chunk (posts.drop c) c (i + 1) := by
  unfold chunk
  have h1 : i + 2 - 1 = i + 1 := by omega
  have h2 : i + 1 - 1 = i := by omega
  rw [h1, h2, List.drop_drop]
  have h3 : (i + 1) * c = c + i * c := by
    rw [Nat.succ_mul]
    omega
  rw [h3]

/-- Concatenating all the pages' document slices reconstructs the
collection. -/
theorem join_pages_aux {α : Type} (c : Nat) (hc : 0 < c) :
    ∀ n (posts : List α), posts.length = n → (pages posts c).flatten = posts := by
  intro n
  induction n using Nat.strong_induction_on with
  | _ n ih =>
    intro posts hlen
    cases posts with
    | nil => simp [pages, total_pages_zero c hc]
    | cons a l =>
      have hpos : 0 < (a :: l).length := by simp
      rw [pages, total_pages_succ _ c hc hpos, List.range_succ_eq_map,
        List.map_cons, List.map_map, List.flatten_cons]
      have hfun : ((fun i => chunk (a :: l) c (i + 1)) ∘ Nat.succ) =
          (fun i => chunk ((a :: l).drop c) c (i + 1)) := by
        funext i
        show chunk (a :: l) c (i + 1 + 1) = chunk ((a :: l).drop c) c (i + 1)
        exact chunk_shift (a :: l) c i
      have hlen' : ((a :: l).drop c).length = (a :: l).length - c := by simp
      have hrec : (pages ((a :: l).drop c) c).flatten = (a :: l).drop c := by
        refine ih (((a :: l).drop c).length) ?_ _ rfl
        rw [hlen', ← hlen]
        omega
      rw [hfun]
      have hchunk1 : chunk (a :: l) c (0 + 1) = (a :: l).take c := by
        simp [chunk]
      rw [hchunk1]
      calc (a :: l).take c ++
            (List.map (fun i => chunk ((a :: l).drop c) c (i + 1))
              (List.range (total_pages ((a :: l).length - c) c))).flatten
          = (a :: l).take c ++ (pages ((a :: l).drop c) c).flatten := by
            rw [pages, hlen']
        _ = (a :: l).take c ++ (a :: l).drop c := by rw [hrec]
        _ = a :: l := List.take_append_drop c (a :: l)

/-- The chunk of page `p` is the slice `[(p-1)·c, p·c)` of the
collection. -/
theorem chunk_eq_slice {α : Type} (posts : List α) (c p : Nat)
    (hp : 1 ≤ p) :
    chunk posts c p = (posts.take (p * c)).drop ((p - 1) * c) := by
  obtain ⟨p', rfl⟩ : ∃ p', p = p' + 1 := ⟨p - 1, by omega⟩
  rw [chunk, List.take_drop]
  have h1 : p' + 1 - 1 = p' := by omega
  have h2 : p' * c + c = (p' + 1) * c := by
    rw [Nat.succ_mul]
  rw [h1, h2]

/-- A numbered listing name is never the empty string. -/
theorem page_str_ne_empty (s : String) : "page" ++ s ++ ".html" ≠ "" := by
  intro h
  have h1 := congrArg String.length h
  rw [String.length_append, String.length_append] at h1
  have h2 : ("page" : String).length = 4 := rfl
  have h3 : (".html" : String).length = 5 := rfl
  have h4 : ("" : String).length = 0 := rfl
  omega

/-- The previous-page link is empty exactly on the first page. -/
theorem prev_url_eq_empty_iff (p : Nat) (hp : 1 ≤ p) :
    prev_url p = "" ↔ p = 1 := by
  unfold prev_url
  rcases Nat.lt_or_ge p 2 with h | h
  · have hp1 : p = 1 := by omega
    simp [hp1]
  · rw [if_pos (by omega)]
    constructor
    · intro he
      by_cases h2 : p = 2
      · rw [if_pos h2] at he
        exact absurd he (by decide)
      · rw [if_neg h2] at he
        exact absurd he (page_str_ne_empty _)
    · intro h1
      omega

/-- The next-page link is empty exactly on the last page. -/
theorem next_url_eq_empty_iff (p t : Nat) (hp : p ≤ t) :
    next_url p t = "" ↔ p = t := by
  unfold next_url
  rcases Nat.lt_or_ge p t with h | h
  · rw [if_pos h]
    constructor
    · intro he
      exact absurd he (page_str_ne_empty _)
    · intro h1
      omega
  · rw [if_neg (by omega)]
    simp
    omega

/-- C1: for a nonempty collection and positive capacity, the page count
is the exact ceiling `⌈N / C⌉`, concatenating all pages' slices
reconstructs the ordered collection, each page `p` holds exactly the
slice `[(p-1)·C, p·C)`, the previous link is empty exactly on page 1
(and on page 2 it is the canonical listing name `index.html`), and the
next link is empty exactly on the last page. -/
theorem C1_paginator {α : Type} (posts : List α) (c : Nat) (hc : 0 < c)
    (hne : posts ≠ []) :
    total_pages posts.length c = ⌈(posts.length : ℚ) / (c : ℚ)⌉₊ ∧
    (pages posts c).flatten = posts ∧
    ∀ p, 1 ≤ p → p ≤ total_pages posts.length c →
      (chunk posts c p = (posts.take (p * c)).drop ((p - 1) * c) ∧
       (prev_url p = "" ↔ p = 1) ∧
       (p = 2 → prev_url p = "index.html") ∧
       (next_url p (total_pages posts.length c) = "" ↔
         p = total_pages posts.length c)) := by
  have hn : 0 < posts.length := List.length_pos.mpr hne
  refine ⟨total_pages_eq_ceil _ c hc hn, join_pages_aux c hc _ posts rfl,
    fun p hp1 hp2 => ⟨chunk_eq_slice posts c p hp1, prev_url_eq_empty_iff p hp1,
      fun h2 => by simp [prev_url, h2], next_url_eq_empty_iff p _ hp2⟩⟩

/-- Concrete instantiation of `C1_paginator` at the spec's example
`N = 13`, `C = 6`: three pages of sizes 6, 6 and 1, page 2's previous
link is the canonical listing name, and page 3's next link is empty. -/
theorem C1_paginator_witness :
    (0 < 6 ∧ (List.range 13 : List Nat) ≠ []) ∧
    total_pages (List.range 13 : List Nat).length 6 = 3 ∧
    (pages (List.range 13 : List Nat) 6).flatten = List.range 13 ∧
    (pages (List.range 13 : List Nat) 6).map List.length = [6, 6, 1] ∧
    prev_url 2 = "index.html" ∧
    next_url 3 (total_pages (List.range 13 : List Nat).length 6) = "" := by
  refine ⟨⟨by decide, by decide⟩, by decide,
    (C1_paginator (List.range 13) 6 (by decide) (by decide)).2.1, by decide,
    ((C1_paginator (List.range 13) 6 (by decide) (by decide)).2.2 2
      (by decide) (by decide)).2.2.1 rfl,
    ((C1_paginator (List.range 13) 6 (by decide) (by decide)).2.2 3
      (by decide) (by decide)).2.2.2.mpr (by decide)⟩

/-! ### Template resolution failure (claim C8) -/

/-- C8: when the collection is nonempty and a required template cannot
be located, the build reports the template error and aborts — no
standalone document page and no listing page is written, and the
paginator is never reached. -/
theorem C8_template_error (render : String → String)
    (parseMeta : String → Meta) (root : Option (List (String × String)))
    (hne : (parse_markdown_posts render parseMeta root).1 ≠ []) :
    (build render parseMeta root false).templateErrorReported = true ∧
    (build render parseMeta root false).postPages = [] ∧
    (build render parseMeta root false).listingPages = [] ∧
    (build render parseMeta root false).paginatorCalledWith = none := by
  have hempty : (parse_markdown_posts render parseMeta root).1.isEmpty = false := by
    simpa [List.isEmpty_iff] using hne
  simp only [build, hempty]
  exact ⟨rfl, rfl, rfl, rfl⟩

/-- Concrete instantiation of `C8_template_error`: one markdown file,
templates missing. -/
theorem C8_template_error_witness :
    (parse_markdown_posts (fun _ => "") (fun _ => [])
        (some [("a.md", "hi")])).1 ≠ [] ∧
    (build (fun _ => "") (fun _ => []) (some [("a.md", "hi")])
        false).templateErrorReported = true ∧
    (build (fun _ => "") (fun _ => []) (some [("a.md", "hi")])
        false).postPages = [] :=
  ⟨by decide,
    (C8_template_error (fun _ => "") (fun _ => [])
      (some [("a.md", "hi")]) (by decide)).1,
    (C8_template_error (fun _ => "") (fun _ => [])
      (some [("a.md", "hi")]) (by decide)).2.1⟩

end Build
